import Mathlib

/-!
Shallow embedding of the shipping-quote aggregation logic of the
parted-euro-app repository (checkout router: getShippingServices and the
three carrier clients getDomesticShippingServices,
getAusPostInternationalShippingServices, getInterparcelShippingServices).

Network transport, JSON parsing and HTML scraping are external effects; they
are modelled as environment values: each carrier client receives the data
the corresponding HTTP responses would have carried (or an error standing
for a thrown fetch/parse failure), and the pure post-processing the source
performs on that data is embedded directly.  JavaScript numbers are
modelled as rationals; Math.ceil is the integer ceiling on rationals.
-/

/-- Amount in minor currency units together with the currency code
(field fixed_amount of a Stripe shipping rate). -/
structure FixedAmount where
  amount : Int
  currency : String
deriving DecidableEq, Repr

/-- The shipping_rate_data record of a Stripe shipping option. -/
structure ShippingRateData where
  type : String
  display_name : String
  fixed_amount : FixedAmount
deriving DecidableEq, Repr

/-- A Stripe shipping option (type StripeShippingOption in the source). -/
structure StripeShippingOption where
  shipping_rate_data : ShippingRateData
deriving DecidableEq, Repr

/-- Input of the getShippingServices procedure
(getShippingServicesInputSchema).  The three optional destination fields are
z.string().optional() in the source. -/
structure ShippingServicesInput where
  weight : ℚ
  length : ℚ
  width : ℚ
  height : ℚ
  destinationCountry : String
  destinationPostcode : Option String
  destinationCity : Option String
  destinationState : Option String
  b2b : Bool
deriving DecidableEq, Repr

/-- The business address constant partedEuroAddress. -/
structure BusinessAddress where
  addrOne : String
  addrTwo : String
  postcode : String
  city : String
  state : String
  country : String
deriving DecidableEq, Repr

def partedEuroAddress : BusinessAddress :=
  { addrOne := "26 Rushdale Street", addrTwo := "2", postcode := "3180",
    city := "Knoxfield", state := "VIC", country := "AU" }

/-- The allow-list constant supportedShippingMethods. -/
def supportedShippingMethods : List String := ["Standard", "Express"]

/-- The synthetic pickup option constant pickupShippingOption. -/
def pickupShippingOption : StripeShippingOption :=
  { shipping_rate_data :=
    { type := "fixed_amount",
      display_name := "Pickup from Parted Euro",
      fixed_amount := { amount := 0, currency := "aud" } } }

/-- The synthetic admin option constant adminShippingOption. -/
def adminShippingOption : StripeShippingOption :=
  { shipping_rate_data :=
    { type := "fixed_amount",
      display_name := "Admin Shipping",
      fixed_amount := { amount := 1, currency := "aud" } } }

/-- One service entry of an AusPost service.json response
(type AusPostShippingService).  The price string of the source is modelled
as the rational number it parses to via Number(); the JavaScript falsy test
on the price string is modelled as the find returning no service. -/
structure AusPostService where
  code : String
  name : String
  price : ℚ
deriving DecidableEq, Repr

/-- Normalisation of one AusPost price into a Stripe option:
amount is Math.ceil(Number(price) * 100), currency AUD. -/
def ausPostOption (displayName : String) (price : ℚ) : StripeShippingOption :=
  { shipping_rate_data :=
    { type := "fixed_amount",
      display_name := displayName,
      fixed_amount := { amount := ⌈price * 100⌉, currency := "AUD" } } }

/-- Post-processing of the AusPost domestic service.json payload inside
getDomesticShippingServices: find the express and regular service codes and
either fail with "Shipping not available" or return the regular option
followed by the express option. -/
def domesticOptionsOfResp (services : List AusPostService) :
    Except String (List StripeShippingOption) :=
  let express := (services.find? fun s => s.code == "AUS_PARCEL_EXPRESS").map
    AusPostService.price
  let regular := (services.find? fun s => s.code == "AUS_PARCEL_REGULAR").map
    AusPostService.price
  match express, regular with
  | some e, some r =>
      Except.ok [ausPostOption "AusPost Regular" r, ausPostOption "AusPost Express" e]
  | _, _ => Except.error "Shipping not available"

/-- The domestic-postal carrier client getDomesticShippingServices.
The fetch/parse of the AusPost response is an external effect and is passed
in as resp (an error stands for a thrown fetch or parse failure). -/
def getDomesticShippingServices (_input : ShippingServicesInput)
    (resp : Except String (List AusPostService)) :
    Except String (List StripeShippingOption) :=
  match resp with
  | Except.error e => Except.error e
  | Except.ok services => domesticOptionsOfResp services

/-- Post-processing of the AusPost international service.json payload inside
getAusPostInternationalShippingServices: map every service to an option and
keep only those whose display name is in supportedShippingMethods. -/
def intlOptionsOfResp (services : List AusPostService) :
    List StripeShippingOption :=
  (services.map fun s => ausPostOption s.name s.price).filter
    fun o => supportedShippingMethods.contains o.shipping_rate_data.display_name

/-- JavaScript String.prototype.includes, as used by the Interparcel
service filters. -/
def strIncludes (s pat : String) : Bool :=
  decide (pat.toList <:+: s.toList)

/-- JavaScript String.prototype.toLowerCase on the ASCII service names the
Interparcel filter inspects: lower-case every character. -/
def jsToLowerCase (s : String) : String :=
  ⟨s.data.map Char.toLower⟩

/-- One candidate service from the Interparcel availability response
(type InterparcelShippingService; only the fields the code reads). -/
structure InterparcelService where
  id : String
  service : String
deriving DecidableEq, Repr

/-- The Interparcel availability response body
(type InterparcelShippingServicesResponse; only the fields the code reads).
A response with no errorMessage field is modelled by the empty string,
matching the JavaScript falsy test. -/
structure InterparcelAvailability where
  errorMessage : String
  services : List InterparcelService
deriving DecidableEq, Repr

/-- One service entry of a per-service Interparcel quote response
(only the fields the code reads: carrier, name, sellPrice). -/
structure InterparcelQuoteService where
  carrier : String
  name : String
  sellPrice : ℚ
deriving DecidableEq, Repr

/-- Outcome of one per-service Interparcel quote call: the fetch threw, or
a response arrived with its HTTP ok flag and its services array. -/
inductive InterparcelQuoteOutcome where
  | thrown : InterparcelQuoteOutcome
  | response (ok : Bool) (services : List InterparcelQuoteService) :
      InterparcelQuoteOutcome
deriving DecidableEq, Repr

/-- The query parameters getInterparcelShippingServices builds
(interparcelParams in the source): package weight and dimensions plus the
collection and delivery address fields.  The pkg entries keep their numeric
values (the source serialises them with toString). -/
structure InterparcelQuoteParams where
  pkgWeight : ℚ
  pkgLength : ℚ
  pkgWidth : ℚ
  pkgHeight : ℚ
  source : String
  collCountry : String
  collState : String
  collCity : String
  collPostcode : String
  delPostcode : String
  delCity : String
  delState : String
  delCountry : String
deriving DecidableEq, Repr

/-- The interparcelParams value of the source: when weight > 35 the package
dimensions are padded (length+30, width+30, height+10), otherwise they are
sent unmodified. -/
def interparcelParams (input : ShippingServicesInput) : InterparcelQuoteParams :=
  if 35 < input.weight then
    { pkgWeight := input.weight, pkgLength := input.length + 30,
      pkgWidth := input.width + 30, pkgHeight := input.height + 10,
      source := "booking", collCountry := "Australia",
      collState := partedEuroAddress.state, collCity := partedEuroAddress.city,
      collPostcode := partedEuroAddress.postcode,
      delPostcode := input.destinationPostcode.getD "",
      delCity := input.destinationCity.getD "",
      delState := input.destinationState.getD "",
      delCountry := input.destinationCountry }
  else
    { pkgWeight := input.weight, pkgLength := input.length,
      pkgWidth := input.width, pkgHeight := input.height,
      source := "booking", collCountry := "Australia",
      collState := partedEuroAddress.state, collCity := partedEuroAddress.city,
      collPostcode := partedEuroAddress.postcode,
      delPostcode := input.destinationPostcode.getD "",
      delCity := input.destinationCity.getD "",
      delState := input.destinationState.getD "",
      delCountry := input.destinationCountry }

/-- The type search parameter added to the availability call (and to the
quote page URL): pallet when weight >= 35, parcel otherwise. -/
def interparcelTypeParam (input : ShippingServicesInput) : String :=
  if 35 ≤ input.weight then "pallet" else "parcel"

/-- The two filters applied to the availability services before the quote
fan-out: drop services whose name includes Hunter, and unless the request
is B2B drop services whose lower-cased name includes b2b. -/
def interparcelCandidateServices (b2b : Bool)
    (services : List InterparcelService) : List InterparcelService :=
  (services.filter fun s => !(strIncludes s.service "Hunter")).filter
    fun s => if b2b then true else !(strIncludes (jsToLowerCase s.service) "b2b")

/-- The body of one per-service quote task of the fan-out: a thrown fetch, a
non-ok HTTP status or an empty services array yields null (modelled none);
otherwise the first quoted service is normalised, with amount
Math.ceil(sellPrice * 100) and display name "carrier - name". -/
def processQuote : InterparcelQuoteOutcome → Option StripeShippingOption
  | InterparcelQuoteOutcome.thrown => none
  | InterparcelQuoteOutcome.response ok services =>
    if !ok then none
    else
      match services with
      | [] => none
      | q :: _ =>
          some { shipping_rate_data :=
            { type := "fixed_amount",
              display_name := q.carrier ++ " - " ++ q.name,
              fixed_amount := { amount := ⌈q.sellPrice * 100⌉, currency := "AUD" } } }

/-- Environment of one getInterparcelShippingServices invocation: the
availability endpoint (keyed by the query parameters and the type
parameter, an error stands for a thrown fetch or parse failure), the
session-identifying cookie and CSRF token the bootstrap page scrape
yielded (none stands for absent), and the per-service quote endpoint
(keyed by the query parameters and the service id). -/
structure InterparcelEnv where
  availability : InterparcelQuoteParams → String → Except String InterparcelAvailability
  phpSessId : Option String
  csrfToken : Option String
  quote : InterparcelQuoteParams → String → InterparcelQuoteOutcome

/-- The surviving quotes of the fan-out, in provider-returned order:
candidate services are mapped to their settled quote outcomes and the
unusable ones are dropped (Promise.allSettled followed by the
fulfilled-and-not-null filter). -/
def interparcelValidServices (input : ShippingServicesInput)
    (env : InterparcelEnv) (services : List InterparcelService) :
    List StripeShippingOption :=
  (interparcelCandidateServices input.b2b services).filterMap
    fun s => processQuote (env.quote (interparcelParams input) s.id)

/-- The freight-broker carrier client getInterparcelShippingServices:
availability check (explicit errorMessage throws), session bootstrap
(missing PHPSESSID cookie or CSRF token throws), then the per-service
fan-out; throws when no usable quote remains, otherwise returns the first
four surviving quotes. -/
def getInterparcelShippingServices (input : ShippingServicesInput)
    (env : InterparcelEnv) : Except String (List StripeShippingOption) :=
  match env.availability (interparcelParams input) (interparcelTypeParam input) with
  | Except.error e => Except.error e
  | Except.ok avail =>
    if avail.errorMessage ≠ "" then Except.error avail.errorMessage
    else if env.phpSessId.isNone then
      Except.error "PHPSESSID not found in Interparcel response"
    else if env.csrfToken.isNone then
      Except.error "Failed to obtain CSRF token from Interparcel"
    else
      let validServices := interparcelValidServices input env avail.services
      if validServices.isEmpty then
        Except.error "Unable to ship this item to the destination country"
      else Except.ok (validServices.take 4)

/-- The international-postal carrier client
getAusPostInternationalShippingServices; resp stands for the fetched
AusPost response (an error stands for a thrown fetch or parse failure). -/
def getAusPostInternationalShippingServices (_input : ShippingServicesInput)
    (resp : Except String (List AusPostService)) :
    Except String (List StripeShippingOption) :=
  match resp with
  | Except.error e => Except.error e
  | Except.ok services => Except.ok (intlOptionsOfResp services)

/-- The carrier clients the router can invoke. -/
inductive Carrier where
  | domestic : Carrier
  | international : Carrier
  | interparcel : Carrier
deriving DecidableEq, Repr

/-- Environment of one getShippingServices request: the AusPost domestic
response, the AusPost international response (each an error for a thrown
fetch or parse failure) and the Interparcel environment. -/
structure ShippingEnv where
  domesticResp : Except String (List AusPostService)
  internationalResp : Except String (List AusPostService)
  interparcel : InterparcelEnv

/-- The every-dimension-below-105 test of the router:
[width, length, height].every(d below 105). -/
def dimsAllUnder105 (input : ShippingServicesInput) : Prop :=
  input.width < 105 ∧ input.length < 105 ∧ input.height < 105

instance (input : ShippingServicesInput) : Decidable (dimsAllUnder105 input) := by
  unfold dimsAllUnder105; infer_instance

/-- A try/catch whose catch block only logs: an error becomes the empty
list (the caught variable keeps its previous value, the empty array). -/
def swallowToNil (r : Except String (List StripeShippingOption)) :
    List StripeShippingOption :=
  match r with
  | Except.ok l => l
  | Except.error _ => []

/-- The getShippingServices query procedure of the checkout router, with an
invocation trace: the result is paired with the list of carrier clients the
branch invokes, in invocation order.  isAdmin is ctx.session user isAdmin
(false when absent). -/
def getShippingServicesT (input : ShippingServicesInput) (isAdmin : Bool)
    (env : ShippingEnv) :
    Except String (List StripeShippingOption) × List Carrier :=
  if 20 ≤ input.weight then
    let attempted : Except String (List StripeShippingOption) :=
      match getInterparcelShippingServices input env.interparcel with
      | Except.ok l => Except.ok l
      | Except.error e =>
          if input.destinationCountry ≠ "AU" then Except.error e
          else Except.ok []
    match attempted with
    | Except.error e => (Except.error e, [Carrier.interparcel])
    | Except.ok shippingServices =>
      let shippingServices :=
        if input.destinationCountry = "AU" then
          shippingServices ++ [pickupShippingOption]
        else shippingServices
      let shippingServices :=
        if isAdmin then adminShippingOption :: shippingServices
        else shippingServices
      (Except.ok shippingServices, [Carrier.interparcel])
  else if input.destinationCountry ≠ "AU" then
    if dimsAllUnder105 input then
      match getAusPostInternationalShippingServices input env.internationalResp with
      | Except.error e => (Except.error e, [Carrier.international])
      | Except.ok shippingServices =>
          (Except.ok (if isAdmin then adminShippingOption :: shippingServices
            else shippingServices), [Carrier.international])
    else
      match getInterparcelShippingServices input env.interparcel with
      | Except.error e => (Except.error e, [Carrier.interparcel])
      | Except.ok shippingServices =>
          (Except.ok (if isAdmin then adminShippingOption :: shippingServices
            else shippingServices), [Carrier.interparcel])
  else
    if dimsAllUnder105 input then
      let shippingServices :=
        swallowToNil (getDomesticShippingServices input env.domesticResp)
      let interparcelServices :=
        swallowToNil (getInterparcelShippingServices input env.interparcel)
      let allShippingServices :=
        pickupShippingOption :: (shippingServices ++ interparcelServices)
      let allShippingServices :=
        if isAdmin then adminShippingOption :: allShippingServices
        else allShippingServices
      (Except.ok (allShippingServices.take 4), [Carrier.domestic, Carrier.interparcel])
    else
      let shippingServices :=
        swallowToNil (getInterparcelShippingServices input env.interparcel)
      let allShippingServices :=
        pickupShippingOption :: (shippingServices ++ ([] : List StripeShippingOption))
      let allShippingServices :=
        if isAdmin then adminShippingOption :: allShippingServices
        else allShippingServices
      (Except.ok (allShippingServices.take 4), [Carrier.interparcel])

/-- The result of the getShippingServices procedure. -/
def getShippingServices (input : ShippingServicesInput) (isAdmin : Bool)
    (env : ShippingEnv) : Except String (List StripeShippingOption) :=
  (getShippingServicesT input isAdmin env).1

/-- The carrier clients a getShippingServices request invokes, in
invocation order. -/
def carriersCalled (input : ShippingServicesInput) (isAdmin : Bool)
    (env : ShippingEnv) : List Carrier :=
  (getShippingServicesT input isAdmin env).2

deriving instance DecidableEq for Except

/-- Concrete input: weight at the heavy boundary 20, small dimensions,
domestic destination, not B2B. -/
def inputAU20 : ShippingServicesInput :=
  { weight := 20, length := 50, width := 40, height := 30,
    destinationCountry := "AU", destinationPostcode := some "3000",
    destinationCity := some "Melbourne", destinationState := some "VIC",
    b2b := false }

/-- Concrete input: heavy (25), small dimensions, non-domestic. -/
def inputUS25 : ShippingServicesInput :=
  { weight := 25, length := 50, width := 50, height := 50,
    destinationCountry := "US", destinationPostcode := some "90210",
    destinationCity := some "Beverly Hills", destinationState := some "CA",
    b2b := false }

/-- Concrete input: light (5), small dimensions, non-domestic. -/
def inputUS5 : ShippingServicesInput :=
  { weight := 5, length := 50, width := 40, height := 30,
    destinationCountry := "US", destinationPostcode := some "90210",
    destinationCity := some "Beverly Hills", destinationState := some "CA",
    b2b := false }

/-- Concrete input: light (5), small dimensions, domestic. -/
def inputAU5 : ShippingServicesInput :=
  { weight := 5, length := 50, width := 40, height := 30,
    destinationCountry := "AU", destinationPostcode := some "3000",
    destinationCity := some "Melbourne", destinationState := some "VIC",
    b2b := false }

/-- Concrete input at the boundary weight of exactly 35, oversized. -/
def inputW35 : ShippingServicesInput :=
  { weight := 35, length := 120, width := 80, height := 60,
    destinationCountry := "AU", destinationPostcode := none,
    destinationCity := none, destinationState := none, b2b := false }

/-- An Interparcel environment whose availability fetch throws. -/
def ipEnvFail : InterparcelEnv :=
  { availability := fun _ _ => Except.error "network error",
    phpSessId := none, csrfToken := none,
    quote := fun _ _ => InterparcelQuoteOutcome.thrown }

/-- Four plain candidate services for the Interparcel fan-out. -/
def ipFourServices : List InterparcelService :=
  [{ id := "s1", service := "TNT Road" },
   { id := "s2", service := "Allied Express" },
   { id := "s3", service := "Aramex" },
   { id := "s4", service := "Couriers Please" }]

/-- An Interparcel environment where the availability call lists four
usable services, the session bootstrap succeeds, and every per-service
quote resolves at sellPrice 25. -/
def ipEnvQuotes : InterparcelEnv :=
  { availability := fun _ _ =>
      Except.ok { errorMessage := "", services := ipFourServices },
    phpSessId := some "abc123", csrfToken := some "tok456",
    quote := fun _ _ => InterparcelQuoteOutcome.response true
      [{ carrier := "TNT", name := "Road Express", sellPrice := 25 }] }

/-- A shipping environment where every carrier endpoint fails. -/
def envAllFail : ShippingEnv :=
  { domesticResp := Except.error "network error",
    internationalResp := Except.error "network error",
    interparcel := ipEnvFail }

/-- A shipping environment where only the Interparcel pipeline succeeds. -/
def envQuotes : ShippingEnv :=
  { domesticResp := Except.error "network error",
    internationalResp := Except.error "network error",
    interparcel := ipEnvQuotes }

/-- An AusPost response listing both domestic tiers, the regular price
fractional to exercise the rounding. -/
def ausRespBoth : List AusPostService :=
  [{ code := "AUS_PARCEL_REGULAR", name := "Parcel Post", price := 2469 / 200 },
   { code := "AUS_PARCEL_EXPRESS", name := "Express Post", price := 25 }]

/-- An AusPost response missing the regular tier. -/
def ausRespNoRegular : List AusPostService :=
  [{ code := "AUS_PARCEL_EXPRESS", name := "Express Post", price := 25 }]

/-- An AusPost international response with an allow-listed and a
non-allow-listed service. -/
def ausRespIntl : List AusPostService :=
  [{ code := "INT_PARCEL_STD_OWN_PACKAGING", name := "Standard", price := 2469 / 200 },
   { code := "INT_PARCEL_SEA_OWN_PACKAGING", name := "Economy Sea", price := 5 }]

/-- A shipping environment where only the international endpoint
succeeds. -/
def envIntl : ShippingEnv :=
  { domesticResp := Except.error "network error",
    internationalResp := Except.ok ausRespIntl,
    interparcel := ipEnvFail }

/-- Ceiling of a rational pinned between n-1 and n. -/
theorem ceil_eq_of_bounds (a : ℚ) (n : ℤ) (h1 : (n : ℚ) - 1 < a) (h2 : a ≤ n) :
    ⌈a⌉ = n := by
  rw [Int.ceil_eq_iff]; exact ⟨h1, h2⟩

/-- A successful per-service quote comes from an ok response with a
nonempty services array, and the produced option is the normalisation of
the first quoted service. -/
theorem processQuote_eq_some {o : InterparcelQuoteOutcome}
    {opt : StripeShippingOption} (h : processQuote o = some opt) :
    ∃ q qs, o = InterparcelQuoteOutcome.response true (q :: qs) ∧
      opt = { shipping_rate_data :=
        { type := "fixed_amount",
          display_name := q.carrier ++ " - " ++ q.name,
          fixed_amount := { amount := ⌈q.sellPrice * 100⌉, currency := "AUD" } } } := by
  cases o with
  | thrown => simp [processQuote] at h
  | response ok services =>
    cases ok with
    | false => simp [processQuote] at h
    | true =>
      cases services with
      | nil => simp [processQuote] at h
      | cons q qs =>
        refine ⟨q, qs, rfl, ?_⟩
        simpa [processQuote] using h.symm

/-- The unusable per-service outcomes are exactly the thrown fetches, the
non-ok responses and the empty services arrays. -/
theorem processQuote_eq_none_iff (o : InterparcelQuoteOutcome) :
    processQuote o = none ↔
      (o = InterparcelQuoteOutcome.thrown
        ∨ (∃ services, o = InterparcelQuoteOutcome.response false services)
        ∨ o = InterparcelQuoteOutcome.response true []) := by
  cases o with
  | thrown => simp [processQuote]
  | response ok services =>
    cases ok with
    | false => simp [processQuote]
    | true => cases services <;> simp [processQuote]

/-- When the freight-broker client succeeds, the result is exactly the
first four surviving quotes. -/
theorem interparcel_ok_iff (input : ShippingServicesInput)
    (env : InterparcelEnv) (l : List StripeShippingOption)
    (h : getInterparcelShippingServices input env = Except.ok l) :
    ∃ avail, env.availability (interparcelParams input) (interparcelTypeParam input)
        = Except.ok avail
      ∧ l = (interparcelValidServices input env avail.services).take 4 := by
  unfold getInterparcelShippingServices at h
  split at h
  next e heq => simp at h
  next avail heq =>
    dsimp only at h
    split_ifs at h with h1 h2 h3 h4
    exact ⟨avail, heq, by injection h with h5; exact h5.symm⟩

/-- A successful freight-broker result has at most four options. -/
theorem interparcel_ok_length_le (input : ShippingServicesInput)
    (env : InterparcelEnv) (l : List StripeShippingOption)
    (h : getInterparcelShippingServices input env = Except.ok l) :
    l.length ≤ 4 := by
  obtain ⟨avail, -, hl⟩ := interparcel_ok_iff input env l h
  rw [hl]
  exact List.length_take_le 4 _

/-- Every option a successful freight-broker result carries has currency
AUD. -/
theorem interparcel_ok_currency (input : ShippingServicesInput)
    (env : InterparcelEnv) (l : List StripeShippingOption)
    (h : getInterparcelShippingServices input env = Except.ok l) :
    ∀ o ∈ l, o.shipping_rate_data.fixed_amount.currency = "AUD" := by
  intro o ho
  obtain ⟨avail, -, hl⟩ := interparcel_ok_iff input env l h
  rw [hl] at ho
  have ho2 := List.take_subset 4 _ ho
  rw [interparcelValidServices] at ho2
  obtain ⟨s, -, hs⟩ := List.mem_filterMap.mp ho2
  obtain ⟨q, qs, -, rfl⟩ := processQuote_eq_some hs
  rfl

/-- Every option of the international-postal post-processing comes from a
provider service whose name is in the allow-list. -/
theorem intl_mem_iff (services : List AusPostService)
    (o : StripeShippingOption) :
    o ∈ intlOptionsOfResp services ↔
      ∃ s ∈ services, supportedShippingMethods.contains s.name
        ∧ o = ausPostOption s.name s.price := by
  unfold intlOptionsOfResp
  simp only [List.mem_filter, List.mem_map]
  constructor
  · rintro ⟨⟨s, hs, rfl⟩, hc⟩
    exact ⟨s, hs, hc, rfl⟩
  · rintro ⟨s, hs, hc, rfl⟩
    exact ⟨⟨s, hs, rfl⟩, hc⟩

/-- C9: the freight-broker request uses shipment type pallet exactly when
weight >= 35 and parcel otherwise, and the package dimensions are padded
(length+30, width+30, height+10) exactly when weight > 35; at weight
exactly 35 the type is pallet but the dimensions are unpadded. -/
theorem claimC9_interparcel_request_shape (input : ShippingServicesInput) :
    (interparcelTypeParam input = "pallet" ↔ 35 ≤ input.weight)
    ∧ (interparcelParams input).pkgWeight = input.weight
    ∧ (35 < input.weight →
        (interparcelParams input).pkgLength = input.length + 30
        ∧ (interparcelParams input).pkgWidth = input.width + 30
        ∧ (interparcelParams input).pkgHeight = input.height + 10)
    ∧ (input.weight ≤ 35 →
        (interparcelParams input).pkgLength = input.length
        ∧ (interparcelParams input).pkgWidth = input.width
        ∧ (interparcelParams input).pkgHeight = input.height)
    ∧ (input.weight = 35 →
        interparcelTypeParam input = "pallet"
        ∧ (interparcelParams input).pkgLength = input.length
        ∧ (interparcelParams input).pkgWidth = input.width
        ∧ (interparcelParams input).pkgHeight = input.height) := by
  unfold interparcelTypeParam interparcelParams
  refine ⟨?_, ?_, ?_, ?_, ?_⟩
  · split_ifs with h
    · simp [h]
    · simp only [h, iff_false]
      decide
  · split_ifs <;> rfl
  · intro h
    rw [if_pos h]
    exact ⟨rfl, rfl, rfl⟩
  · intro h
    rw [if_neg (not_lt.mpr h)]
    exact ⟨rfl, rfl, rfl⟩
  · intro h
    rw [if_pos (le_of_eq h.symm), if_neg (by rw [h]; exact lt_irrefl 35)]
    exact ⟨rfl, rfl, rfl, rfl⟩

/-- Witness for C9 at weight exactly 35. -/
theorem claimC9_witness :
    inputW35.weight = 35
    ∧ interparcelTypeParam inputW35 = "pallet"
    ∧ (interparcelParams inputW35).pkgLength = 120 :=
  ⟨rfl,
    ((claimC9_interparcel_request_shape inputW35).2.2.2.2 rfl).1,
    ((claimC9_interparcel_request_shape inputW35).2.2.2.2 rfl).2.1⟩

/-- C4: in the freight-broker client, a thrown per-service call, a non-ok
HTTP status or an empty services array is silently excluded; once the
availability call and the session bootstrap succeed, the client fails with
the no-services error exactly when zero usable quotes remain, and
otherwise returns the first four surviving quotes in provider order. -/
theorem claimC4_interparcel_fan_out (input : ShippingServicesInput)
    (env : InterparcelEnv) (avail : InterparcelAvailability)
    (hav : env.availability (interparcelParams input) (interparcelTypeParam input)
      = Except.ok avail)
    (hmsg : avail.errorMessage = "")
    (hsess : env.phpSessId ≠ none) (hcsrf : env.csrfToken ≠ none) :
    (∀ services, processQuote InterparcelQuoteOutcome.thrown = none
      ∧ processQuote (InterparcelQuoteOutcome.response false services) = none
      ∧ processQuote (InterparcelQuoteOutcome.response true []) = none)
    ∧ (getInterparcelShippingServices input env
        = Except.error "Unable to ship this item to the destination country"
        ↔ interparcelValidServices input env avail.services = [])
    ∧ (interparcelValidServices input env avail.services ≠ [] →
        getInterparcelShippingServices input env
          = Except.ok ((interparcelValidServices input env avail.services).take 4)) := by
  have hpipe : getInterparcelShippingServices input env =
      if (interparcelValidServices input env avail.services).isEmpty then
        Except.error "Unable to ship this item to the destination country"
      else Except.ok ((interparcelValidServices input env avail.services).take 4) := by
    unfold getInterparcelShippingServices
    rw [hav]
    dsimp only
    rw [if_neg (by simp [hmsg]),
      if_neg (by simp [Option.isNone_iff_eq_none, hsess]),
      if_neg (by simp [Option.isNone_iff_eq_none, hcsrf])]
  refine ⟨fun services => ⟨rfl, rfl, rfl⟩, ?_, ?_⟩
  · rw [hpipe]
    by_cases he : (interparcelValidServices input env avail.services).isEmpty
    · simp [he, List.isEmpty_iff.mp he]
    · simp only [if_neg he]
      constructor
      · intro hcontr; exact absurd hcontr (by simp)
      · intro hnil
        exact absurd (List.isEmpty_iff.mpr hnil) he
  · intro hne
    rw [hpipe, if_neg (by simp [List.isEmpty_iff, hne])]

/-- Witness for C4: four candidate services, every quote usable. -/
theorem claimC4_witness :
    ipEnvQuotes.availability (interparcelParams inputAU20) (interparcelTypeParam inputAU20)
      = Except.ok { errorMessage := "", services := ipFourServices }
    ∧ ipEnvQuotes.phpSessId ≠ none
    ∧ ipEnvQuotes.csrfToken ≠ none
    ∧ interparcelValidServices inputAU20 ipEnvQuotes ipFourServices ≠ []
    ∧ getInterparcelShippingServices inputAU20 ipEnvQuotes
      = Except.ok ((interparcelValidServices inputAU20 ipEnvQuotes ipFourServices).take 4) :=
  ⟨rfl, by decide, by decide, by decide,
    (claimC4_interparcel_fan_out inputAU20 ipEnvQuotes
      { errorMessage := "", services := ipFourServices }
      rfl rfl (by decide) (by decide)).2.2 (by decide)⟩

/-- C6: the domestic-postal post-processing fails with "Shipping not
available" exactly when the regular or the express service code is absent
from the provider response; when both are present it returns exactly the
two corresponding options, regular then express. -/
theorem claimC6_domestic_both_tiers (services : List AusPostService) :
    (((¬ ∃ s ∈ services, s.code = "AUS_PARCEL_EXPRESS")
        ∨ (¬ ∃ s ∈ services, s.code = "AUS_PARCEL_REGULAR"))
      ↔ domesticOptionsOfResp services = Except.error "Shipping not available")
    ∧ (∀ l, domesticOptionsOfResp services = Except.ok l →
        ∃ r e, r ∈ services ∧ r.code = "AUS_PARCEL_REGULAR"
          ∧ e ∈ services ∧ e.code = "AUS_PARCEL_EXPRESS"
          ∧ l = [ausPostOption "AusPost Regular" r.price,
                 ausPostOption "AusPost Express" e.price]) := by
  constructor
  · constructor
    · rintro (hmiss | hmiss)
      · have h0 : services.find? (fun s => s.code == "AUS_PARCEL_EXPRESS") = none := by
          rw [List.find?_eq_none]
          intro x hx
          simp only [beq_iff_eq]
          exact fun hc => hmiss ⟨x, hx, hc⟩
        unfold domesticOptionsOfResp
        rw [h0]
        cases services.find? fun s => s.code == "AUS_PARCEL_REGULAR" <;> rfl
      · have h0 : services.find? (fun s => s.code == "AUS_PARCEL_REGULAR") = none := by
          rw [List.find?_eq_none]
          intro x hx
          simp only [beq_iff_eq]
          exact fun hc => hmiss ⟨x, hx, hc⟩
        unfold domesticOptionsOfResp
        rw [h0]
        cases services.find? fun s => s.code == "AUS_PARCEL_EXPRESS" <;> rfl
    · intro herr
      by_contra hboth
      push_neg at hboth
      obtain ⟨hE, hR⟩ := hboth
      have hE2 : (services.find? fun s => s.code == "AUS_PARCEL_EXPRESS").isSome := by
        rw [List.find?_isSome]
        obtain ⟨s, hs, hc⟩ := hE
        exact ⟨s, hs, by simp [hc]⟩
      have hR2 : (services.find? fun s => s.code == "AUS_PARCEL_REGULAR").isSome := by
        rw [List.find?_isSome]
        obtain ⟨s, hs, hc⟩ := hR
        exact ⟨s, hs, by simp [hc]⟩
      obtain ⟨e, he⟩ := Option.isSome_iff_exists.mp hE2
      obtain ⟨r, hr⟩ := Option.isSome_iff_exists.mp hR2
      unfold domesticOptionsOfResp at herr
      rw [he, hr] at herr
      simp at herr
  · intro l hok
    cases hfE : services.find? fun s => s.code == "AUS_PARCEL_EXPRESS" with
    | none =>
      unfold domesticOptionsOfResp at hok
      rw [hfE] at hok
      cases hfR : services.find? fun s => s.code == "AUS_PARCEL_REGULAR" <;>
        rw [hfR] at hok <;> simp at hok
    | some e =>
      cases hfR : services.find? fun s => s.code == "AUS_PARCEL_REGULAR" with
      | none =>
        unfold domesticOptionsOfResp at hok
        rw [hfE, hfR] at hok
        simp at hok
      | some r =>
        unfold domesticOptionsOfResp at hok
        rw [hfE, hfR] at hok
        refine ⟨r, e, List.mem_of_find?_eq_some hfR, ?_,
          List.mem_of_find?_eq_some hfE, ?_, ?_⟩
        · simpa using List.find?_some hfR
        · simpa using List.find?_some hfE
        · simpa using hok.symm

/-- Witness for C6: both tiers present in the response. -/
theorem claimC6_witness :
    domesticOptionsOfResp ausRespBoth
      = Except.ok [ausPostOption "AusPost Regular" (2469 / 200),
                   ausPostOption "AusPost Express" 25]
    ∧ ∃ r e, r ∈ ausRespBoth ∧ r.code = "AUS_PARCEL_REGULAR"
        ∧ e ∈ ausRespBoth ∧ e.code = "AUS_PARCEL_EXPRESS"
        ∧ [ausPostOption "AusPost Regular" (2469 / 200), ausPostOption "AusPost Express" 25]
          = [ausPostOption "AusPost Regular" r.price, ausPostOption "AusPost Express" e.price] :=
  ⟨rfl, (claimC6_domestic_both_tiers ausRespBoth).2 _ rfl⟩

/-- A successful domestic post-processing returns the normalisations of
two services found in the response. -/
theorem domestic_ok_shape (services : List AusPostService)
    (l : List StripeShippingOption)
    (hok : domesticOptionsOfResp services = Except.ok l) :
    ∃ r e, r ∈ services ∧ e ∈ services
      ∧ l = [ausPostOption "AusPost Regular" r.price,
             ausPostOption "AusPost Express" e.price] := by
  cases hfE : services.find? fun s => s.code == "AUS_PARCEL_EXPRESS" with
  | none =>
    unfold domesticOptionsOfResp at hok
    rw [hfE] at hok
    cases hfR : services.find? fun s => s.code == "AUS_PARCEL_REGULAR" <;>
      rw [hfR] at hok <;> simp at hok
  | some e =>
    cases hfR : services.find? fun s => s.code == "AUS_PARCEL_REGULAR" with
    | none =>
      unfold domesticOptionsOfResp at hok
      rw [hfE, hfR] at hok
      simp at hok
    | some r =>
      unfold domesticOptionsOfResp at hok
      rw [hfE, hfR] at hok
      exact ⟨r, e, List.mem_of_find?_eq_some hfR, List.mem_of_find?_eq_some hfE,
        by simpa using hok.symm⟩

/-- C7: the international-postal post-processing returns exactly the
provider services whose display name is in the allow-list Standard,
Express; everything else is silently dropped and no service name causes an
error. -/
theorem claimC7_intl_allow_list (services : List AusPostService) :
    intlOptionsOfResp services
      = ((services.filter fun s => supportedShippingMethods.contains s.name).map
          fun s => ausPostOption s.name s.price)
    ∧ (∀ o ∈ intlOptionsOfResp services,
        o.shipping_rate_data.display_name = "Standard"
        ∨ o.shipping_rate_data.display_name = "Express") := by
  constructor
  · unfold intlOptionsOfResp
    rw [List.filter_map]
    rfl
  · intro o ho
    obtain ⟨s, -, hc, rfl⟩ := (intl_mem_iff services o).mp ho
    have : s.name = "Standard" ∨ s.name = "Express" := by
      simpa [supportedShippingMethods] using hc
    exact this

/-- Witness for C7: Standard kept, Economy Sea dropped. -/
theorem claimC7_witness :
    ausPostOption "Standard" (2469 / 200) ∈ intlOptionsOfResp ausRespIntl
    ∧ ((ausPostOption "Standard" (2469 / 200)).shipping_rate_data.display_name = "Standard"
      ∨ (ausPostOption "Standard" (2469 / 200)).shipping_rate_data.display_name = "Express") :=
  have hm : ausPostOption "Standard" (2469 / 200) ∈ intlOptionsOfResp ausRespIntl := by
    simp [intlOptionsOfResp, ausRespIntl, supportedShippingMethods, ausPostOption]
  ⟨hm, (claimC7_intl_allow_list ausRespIntl).2 _ hm⟩

/-- C8: every option any of the three carrier post-processing layers emits
carries an amount equal to the ceiling of the corresponding provider price
times 100, and that amount never under-quotes the provider price. -/
theorem claimC8_ceil_pricing :
    (∀ services l, domesticOptionsOfResp services = Except.ok l →
      ∀ o ∈ l, ∃ s ∈ services,
        o.shipping_rate_data.fixed_amount.amount = ⌈s.price * 100⌉
        ∧ s.price * 100 ≤ (o.shipping_rate_data.fixed_amount.amount : ℚ))
    ∧ (∀ services, ∀ o ∈ intlOptionsOfResp services, ∃ s ∈ services,
        o.shipping_rate_data.fixed_amount.amount = ⌈s.price * 100⌉
        ∧ s.price * 100 ≤ (o.shipping_rate_data.fixed_amount.amount : ℚ))
    ∧ (∀ outcome o, processQuote outcome = some o →
        ∃ q qs, outcome = InterparcelQuoteOutcome.response true (q :: qs)
          ∧ o.shipping_rate_data.fixed_amount.amount = ⌈q.sellPrice * 100⌉
          ∧ q.sellPrice * 100 ≤ (o.shipping_rate_data.fixed_amount.amount : ℚ)) := by
  refine ⟨?_, ?_, ?_⟩
  · intro services l hok o ho
    obtain ⟨r, e, hr, he, rfl⟩ := domestic_ok_shape services l hok
    rcases List.mem_pair.mp ho with rfl | rfl
    · exact ⟨r, hr, rfl, by exact_mod_cast Int.le_ceil (r.price * 100)⟩
    · exact ⟨e, he, rfl, by exact_mod_cast Int.le_ceil (e.price * 100)⟩
  · intro services o ho
    obtain ⟨s, hs, -, rfl⟩ := (intl_mem_iff services o).mp ho
    exact ⟨s, hs, rfl, by exact_mod_cast Int.le_ceil (s.price * 100)⟩
  · intro outcome o hq
    obtain ⟨q, qs, rfl, rfl⟩ := processQuote_eq_some hq
    exact ⟨q, qs, rfl, rfl, by exact_mod_cast Int.le_ceil (q.sellPrice * 100)⟩

/-- Witness for C8 on the domestic client with a fractional price. -/
theorem claimC8_witness :
    domesticOptionsOfResp ausRespBoth
      = Except.ok [ausPostOption "AusPost Regular" (2469 / 200),
                   ausPostOption "AusPost Express" 25]
    ∧ ∃ s ∈ ausRespBoth,
        (ausPostOption "AusPost Regular" (2469 / 200)).shipping_rate_data.fixed_amount.amount
          = ⌈s.price * 100⌉
        ∧ s.price * 100
          ≤ ((ausPostOption "AusPost Regular" (2469 / 200)).shipping_rate_data.fixed_amount.amount : ℚ) :=
  ⟨rfl, claimC8_ceil_pricing.1 ausRespBoth _ rfl _ (by simp)⟩

/-- Shape of the router on the heavy branch (weight >= 20). -/
theorem gssT_heavy (input : ShippingServicesInput) (isAdmin : Bool)
    (env : ShippingEnv) (hw : 20 ≤ input.weight) :
    getShippingServicesT input isAdmin env =
      match getInterparcelShippingServices input env.interparcel with
      | Except.error e =>
        if input.destinationCountry ≠ "AU" then
          (Except.error e, [Carrier.interparcel])
        else
          (Except.ok (if isAdmin then
              adminShippingOption :: [pickupShippingOption]
            else [pickupShippingOption]), [Carrier.interparcel])
      | Except.ok l =>
        (Except.ok (if isAdmin then
            adminShippingOption ::
              (if input.destinationCountry = "AU" then l ++ [pickupShippingOption] else l)
          else
            (if input.destinationCountry = "AU" then l ++ [pickupShippingOption] else l)),
          [Carrier.interparcel]) := by
  unfold getShippingServicesT
  rw [if_pos hw]
  cases hip : getInterparcelShippingServices input env.interparcel with
  | error e =>
    dsimp only
    by_cases hne : input.destinationCountry ≠ "AU"
    · rw [if_pos hne, if_pos hne]
    · rw [if_neg hne, if_neg hne]
      have hAU : input.destinationCountry = "AU" := not_ne_iff.mp hne
      simp [hAU]
  | ok l =>
    dsimp only

/-- Shape of the router on the light non-domestic small-dimensions branch:
only the international-postal client is invoked. -/
theorem gssT_intl (input : ShippingServicesInput) (isAdmin : Bool)
    (env : ShippingEnv) (hw : ¬20 ≤ input.weight)
    (hne : input.destinationCountry ≠ "AU") (hd : dimsAllUnder105 input) :
    getShippingServicesT input isAdmin env =
      match getAusPostInternationalShippingServices input env.internationalResp with
      | Except.error e => (Except.error e, [Carrier.international])
      | Except.ok l =>
        (Except.ok (if isAdmin then adminShippingOption :: l else l),
          [Carrier.international]) := by
  unfold getShippingServicesT
  rw [if_neg hw, if_pos hne, if_pos hd]

/-- Shape of the router on the light non-domestic oversized branch: only
the freight-broker client is invoked. -/
theorem gssT_intl_oversize (input : ShippingServicesInput) (isAdmin : Bool)
    (env : ShippingEnv) (hw : ¬20 ≤ input.weight)
    (hne : input.destinationCountry ≠ "AU") (hd : ¬dimsAllUnder105 input) :
    getShippingServicesT input isAdmin env =
      match getInterparcelShippingServices input env.interparcel with
      | Except.error e => (Except.error e, [Carrier.interparcel])
      | Except.ok l =>
        (Except.ok (if isAdmin then adminShippingOption :: l else l),
          [Carrier.interparcel]) := by
  unfold getShippingServicesT
  rw [if_neg hw, if_pos hne, if_neg hd]

/-- Shape of the router on the light domestic small-dimensions branch. -/
theorem gssT_domestic (input : ShippingServicesInput) (isAdmin : Bool)
    (env : ShippingEnv) (hw : ¬20 ≤ input.weight)
    (hAU : input.destinationCountry = "AU") (hd : dimsAllUnder105 input) :
    getShippingServicesT input isAdmin env =
      (Except.ok ((if isAdmin then
          adminShippingOption ::
            (pickupShippingOption ::
              (swallowToNil (getDomesticShippingServices input env.domesticResp)
                ++ swallowToNil (getInterparcelShippingServices input env.interparcel)))
        else
          pickupShippingOption ::
            (swallowToNil (getDomesticShippingServices input env.domesticResp)
              ++ swallowToNil (getInterparcelShippingServices input env.interparcel))).take 4),
        [Carrier.domestic, Carrier.interparcel]) := by
  unfold getShippingServicesT
  rw [if_neg hw, if_neg (by simp [hAU]), if_pos hd]

/-- Shape of the router on the light domestic oversized branch. -/
theorem gssT_domestic_oversize (input : ShippingServicesInput) (isAdmin : Bool)
    (env : ShippingEnv) (hw : ¬20 ≤ input.weight)
    (hAU : input.destinationCountry = "AU") (hd : ¬dimsAllUnder105 input) :
    getShippingServicesT input isAdmin env =
      (Except.ok ((if isAdmin then
          adminShippingOption ::
            (pickupShippingOption ::
              (swallowToNil (getInterparcelShippingServices input env.interparcel) ++ []))
        else
          pickupShippingOption ::
            (swallowToNil (getInterparcelShippingServices input env.interparcel) ++ [])).take 4),
        [Carrier.interparcel]) := by
  unfold getShippingServicesT
  rw [if_neg hw, if_neg (by simp [hAU]), if_neg hd]

/-- A successful international-postal client call is the post-processing
of a successfully fetched response. -/
theorem intlClient_ok (input : ShippingServicesInput)
    (resp : Except String (List AusPostService)) (l : List StripeShippingOption)
    (h : getAusPostInternationalShippingServices input resp = Except.ok l) :
    ∃ services, resp = Except.ok services ∧ l = intlOptionsOfResp services := by
  cases resp with
  | error e => simp [getAusPostInternationalShippingServices] at h
  | ok services =>
    exact ⟨services, rfl,
      by simpa [getAusPostInternationalShippingServices] using h.symm⟩

/-- Every option of the international post-processing has currency AUD. -/
theorem intl_options_currency (services : List AusPostService) :
    ∀ o ∈ intlOptionsOfResp services,
      o.shipping_rate_data.fixed_amount.currency = "AUD" := by
  intro o ho
  obtain ⟨s, -, -, rfl⟩ := (intl_mem_iff services o).mp ho
  rfl

/-- The international post-processing never returns more options than the
provider listed. -/
theorem intl_options_length (services : List AusPostService) :
    (intlOptionsOfResp services).length ≤ services.length := by
  unfold intlOptionsOfResp
  calc ((services.map fun s => ausPostOption s.name s.price).filter
        fun o => supportedShippingMethods.contains o.shipping_rate_data.display_name).length
      ≤ (services.map fun s => ausPostOption s.name s.price).length :=
        List.length_filter_le _ _
    _ = services.length := List.length_map _ _

/-- C3 (amended with the weight < 20 guard of the branch): a light request
with all dimensions below 105 and a non-domestic destination invokes
exactly the international-postal client. -/
theorem claimC3_small_international_carrier (input : ShippingServicesInput)
    (isAdmin : Bool) (env : ShippingEnv)
    (hw : input.weight < 20) (hne : input.destinationCountry ≠ "AU")
    (hd : dimsAllUnder105 input) :
    carriersCalled input isAdmin env = [Carrier.international] := by
  unfold carriersCalled
  rw [gssT_intl input isAdmin env (not_le.mpr hw) hne hd]
  cases getAusPostInternationalShippingServices input env.internationalResp <;> rfl

/-- Counterexample to C3 as stated: a heavy request with all dimensions
below 105 and a non-domestic destination goes to the freight broker. -/
theorem claimC3_counterexample :
    dimsAllUnder105 inputUS25
    ∧ inputUS25.destinationCountry ≠ "AU"
    ∧ Carrier.interparcel ∈ carriersCalled inputUS25 false envAllFail :=
  ⟨by decide, by decide, by decide⟩

/-- Witness for the amended C3. -/
theorem claimC3_witness :
    inputUS5.weight < 20 ∧ inputUS5.destinationCountry ≠ "AU"
    ∧ dimsAllUnder105 inputUS5
    ∧ carriersCalled inputUS5 false envAllFail = [Carrier.international] :=
  ⟨by decide, by decide, by decide,
    claimC3_small_international_carrier inputUS5 false envAllFail
      (by decide) (by decide) (by decide)⟩

/-- C5: whenever the caller is an admin and a list is returned, its first
element is the synthetic admin option, on every policy branch. -/
theorem claimC5_admin_first (input : ShippingServicesInput) (env : ShippingEnv)
    (l : List StripeShippingOption)
    (h : getShippingServices input true env = Except.ok l) :
    l.head? = some adminShippingOption := by
  unfold getShippingServices at h
  by_cases hw : 20 ≤ input.weight
  · rw [gssT_heavy input true env hw] at h
    cases hip : getInterparcelShippingServices input env.interparcel with
    | error e =>
      rw [hip] at h
      dsimp only at h
      by_cases hne : input.destinationCountry ≠ "AU"
      · rw [if_pos hne] at h
        simp at h
      · rw [if_neg hne] at h
        simp at h
        rw [← h]
        rfl
    | ok l2 =>
      rw [hip] at h
      dsimp only at h
      simp at h
      rw [← h]
      rfl
  · by_cases hne : input.destinationCountry ≠ "AU"
    · by_cases hd : dimsAllUnder105 input
      · rw [gssT_intl input true env hw hne hd] at h
        cases hi : getAusPostInternationalShippingServices input env.internationalResp with
        | error e => rw [hi] at h; simp at h
        | ok l2 =>
          rw [hi] at h
          simp at h
          rw [← h]
          rfl
      · rw [gssT_intl_oversize input true env hw hne hd] at h
        cases hi : getInterparcelShippingServices input env.interparcel with
        | error e => rw [hi] at h; simp at h
        | ok l2 =>
          rw [hi] at h
          simp at h
          rw [← h]
          rfl
    · have hAU := not_ne_iff.mp hne
      by_cases hd : dimsAllUnder105 input
      · rw [gssT_domestic input true env hw hAU hd] at h
        simp at h
        rw [← h]
        rfl
      · rw [gssT_domestic_oversize input true env hw hAU hd] at h
        simp at h
        rw [← h]
        rfl

/-- Witness for C5 on the domestic branch with every carrier failing. -/
theorem claimC5_witness :
    getShippingServices inputAU5 true envAllFail
      = Except.ok [adminShippingOption, pickupShippingOption]
    ∧ ([adminShippingOption, pickupShippingOption] : List StripeShippingOption).head?
      = some adminShippingOption :=
  ⟨by decide,
    claimC5_admin_first inputAU5 envAllFail
      [adminShippingOption, pickupShippingOption] (by decide)⟩

/-- C1 (amended for admin callers): on the heavy branch, a freight-broker
failure with a domestic destination is swallowed and the result is exactly
the pickup option, with the admin option prepended for admin callers
(never empty, never an error); with a non-domestic destination the same
failure propagates unchanged. -/
theorem claimC1_heavy_error_policy (input : ShippingServicesInput)
    (isAdmin : Bool) (env : ShippingEnv) (e : String)
    (hw : 20 ≤ input.weight)
    (hip : getInterparcelShippingServices input env.interparcel = Except.error e) :
    (input.destinationCountry = "AU" →
      getShippingServices input isAdmin env
        = Except.ok (if isAdmin then [adminShippingOption, pickupShippingOption]
            else [pickupShippingOption]))
    ∧ (input.destinationCountry ≠ "AU" →
      getShippingServices input isAdmin env = Except.error e) := by
  constructor
  · intro hAU
    unfold getShippingServices
    rw [gssT_heavy input isAdmin env hw, hip]
    dsimp only
    rw [if_neg (by simp [hAU])]
  · intro hne
    unfold getShippingServices
    rw [gssT_heavy input isAdmin env hw, hip]
    dsimp only
    rw [if_pos hne]

/-- Counterexample to C1 as stated: for an admin caller the swallowed
domestic failure yields the admin option in front of the pickup option,
not exactly the pickup option. -/
theorem claimC1_counterexample :
    (20 : ℚ) ≤ inputAU20.weight
    ∧ inputAU20.destinationCountry = "AU"
    ∧ getInterparcelShippingServices inputAU20 envAllFail.interparcel
        = Except.error "network error"
    ∧ getShippingServices inputAU20 true envAllFail
        = Except.ok [adminShippingOption, pickupShippingOption]
    ∧ getShippingServices inputAU20 true envAllFail
        ≠ Except.ok [pickupShippingOption] :=
  ⟨by decide, by decide, by decide, by decide, by decide⟩

/-- Witness for the amended C1 on a non-admin caller. -/
theorem claimC1_witness :
    (20 : ℚ) ≤ inputAU20.weight
    ∧ getInterparcelShippingServices inputAU20 envAllFail.interparcel
        = Except.error "network error"
    ∧ inputAU20.destinationCountry = "AU"
    ∧ getShippingServices inputAU20 false envAllFail
        = Except.ok [pickupShippingOption] :=
  ⟨by decide, by decide, by decide,
    by simpa using
      (claimC1_heavy_error_policy inputAU20 false envAllFail "network error"
        (by decide) (by decide)).1 (by decide)⟩

/-- C10: a non-domestic request never receives the synthetic pickup
option, on any branch and for any carrier outcome. -/
theorem claimC10_no_pickup_international (input : ShippingServicesInput)
    (isAdmin : Bool) (env : ShippingEnv)
    (hne : input.destinationCountry ≠ "AU") :
    ∀ l, getShippingServices input isAdmin env = Except.ok l →
      pickupShippingOption ∉ l := by
  intro l h hmem
  unfold getShippingServices at h
  by_cases hw : 20 ≤ input.weight
  · rw [gssT_heavy input isAdmin env hw] at h
    cases hip : getInterparcelShippingServices input env.interparcel with
    | error e =>
      rw [hip] at h
      dsimp only at h
      rw [if_pos hne] at h
      simp at h
    | ok l2 =>
      rw [hip] at h
      dsimp only at h
      rw [if_neg hne] at h
      simp at h
      have hcur := interparcel_ok_currency input env.interparcel l2 hip
      cases isAdmin with
      | false =>
        simp at h
        rw [← h] at hmem
        exact absurd (hcur pickupShippingOption hmem) (by decide)
      | true =>
        simp at h
        rw [← h] at hmem
        rcases List.mem_cons.mp hmem with heq | hmem2
        · exact absurd heq (by decide)
        · exact absurd (hcur pickupShippingOption hmem2) (by decide)
  · by_cases hd : dimsAllUnder105 input
    · rw [gssT_intl input isAdmin env hw hne hd] at h
      cases hi : getAusPostInternationalShippingServices input env.internationalResp with
      | error e => rw [hi] at h; simp at h
      | ok l2 =>
        rw [hi] at h
        simp at h
        obtain ⟨services, -, rfl⟩ := intlClient_ok input env.internationalResp l2 hi
        have hcur := intl_options_currency services
        cases isAdmin with
        | false =>
          simp at h
          rw [← h] at hmem
          exact absurd (hcur pickupShippingOption hmem) (by decide)
        | true =>
          simp at h
          rw [← h] at hmem
          rcases List.mem_cons.mp hmem with heq | hmem2
          · exact absurd heq (by decide)
          · exact absurd (hcur pickupShippingOption hmem2) (by decide)
    · rw [gssT_intl_oversize input isAdmin env hw hne hd] at h
      cases hi : getInterparcelShippingServices input env.interparcel with
      | error e => rw [hi] at h; simp at h
      | ok l2 =>
        rw [hi] at h
        simp at h
        have hcur := interparcel_ok_currency input env.interparcel l2 hi
        cases isAdmin with
        | false =>
          simp at h
          rw [← h] at hmem
          exact absurd (hcur pickupShippingOption hmem) (by decide)
        | true =>
          simp at h
          rw [← h] at hmem
          rcases List.mem_cons.mp hmem with heq | hmem2
          · exact absurd heq (by decide)
          · exact absurd (hcur pickupShippingOption hmem2) (by decide)

/-- Witness for C10 on the international branch. -/
theorem claimC10_witness :
    inputUS5.destinationCountry ≠ "AU"
    ∧ getShippingServices inputUS5 false envIntl
        = Except.ok (intlOptionsOfResp ausRespIntl)
    ∧ pickupShippingOption ∉ intlOptionsOfResp ausRespIntl :=
  have hres : getShippingServices inputUS5 false envIntl
      = Except.ok (intlOptionsOfResp ausRespIntl) := rfl
  ⟨by decide, hres,
    claimC10_no_pickup_international inputUS5 false envIntl (by decide)
      (intlOptionsOfResp ausRespIntl) hres⟩

/-- C2 (amended): only the light domestic branch truncates the final list
to 4; the heavy branch can return up to 6 options, the light non-domestic
freight branch up to 5, and the light non-domestic postal branch is
bounded only by one more than the number of services the provider
returns. -/
theorem claimC2_length_bounds (input : ShippingServicesInput)
    (isAdmin : Bool) (env : ShippingEnv) :
    (input.weight < 20 → input.destinationCountry = "AU" →
      ∀ l, getShippingServices input isAdmin env = Except.ok l → l.length ≤ 4)
    ∧ (20 ≤ input.weight →
      ∀ l, getShippingServices input isAdmin env = Except.ok l → l.length ≤ 6)
    ∧ (input.weight < 20 → input.destinationCountry ≠ "AU" →
        ¬dimsAllUnder105 input →
      ∀ l, getShippingServices input isAdmin env = Except.ok l → l.length ≤ 5)
    ∧ (input.weight < 20 → input.destinationCountry ≠ "AU" →
        dimsAllUnder105 input →
      ∀ l services, env.internationalResp = Except.ok services →
        getShippingServices input isAdmin env = Except.ok l →
        l.length ≤ 1 + services.length) := by
  refine ⟨?_, ?_, ?_, ?_⟩
  · intro hw hAU l h
    unfold getShippingServices at h
    by_cases hd : dimsAllUnder105 input
    · rw [gssT_domestic input isAdmin env (not_le.mpr hw) hAU hd] at h
      simp at h
      rw [← h]
      exact List.length_take_le 4 _
    · rw [gssT_domestic_oversize input isAdmin env (not_le.mpr hw) hAU hd] at h
      simp at h
      rw [← h]
      exact List.length_take_le 4 _
  · intro hw l h
    unfold getShippingServices at h
    rw [gssT_heavy input isAdmin env hw] at h
    cases hip : getInterparcelShippingServices input env.interparcel with
    | error e =>
      rw [hip] at h
      dsimp only at h
      by_cases hne : input.destinationCountry ≠ "AU"
      · rw [if_pos hne] at h; simp at h
      · rw [if_neg hne] at h
        simp at h
        rw [← h]
        cases isAdmin <;> simp
    | ok l2 =>
      rw [hip] at h
      dsimp only at h
      simp at h
      have hlen : l2.length ≤ 4 :=
        interparcel_ok_length_le input env.interparcel l2 hip
      rw [← h]
      cases isAdmin <;> by_cases hAU : input.destinationCountry = "AU" <;>
        simp [hAU] <;> omega
  · intro hw hne hd l h
    unfold getShippingServices at h
    rw [gssT_intl_oversize input isAdmin env (not_le.mpr hw) hne hd] at h
    cases hip : getInterparcelShippingServices input env.interparcel with
    | error e => rw [hip] at h; simp at h
    | ok l2 =>
      rw [hip] at h
      simp at h
      have hlen : l2.length ≤ 4 :=
        interparcel_ok_length_le input env.interparcel l2 hip
      rw [← h]
      cases isAdmin <;> simp <;> omega
  · intro hw hne hd l services hresp h
    unfold getShippingServices at h
    rw [gssT_intl input isAdmin env (not_le.mpr hw) hne hd] at h
    cases hi : getAusPostInternationalShippingServices input env.internationalResp with
    | error e => rw [hi] at h; simp at h
    | ok l2 =>
      rw [hi] at h
      simp at h
      obtain ⟨services2, hresp2, rfl⟩ :=
        intlClient_ok input env.internationalResp l2 hi
      rw [hresp] at hresp2
      injection hresp2 with hsame
      subst hsame
      have hlen : (intlOptionsOfResp services).length ≤ services.length :=
        intl_options_length services
      rw [← h]
      cases isAdmin <;> simp <;> omega

/-- Counterexample to C2 as stated: a heavy domestic request with four
usable freight quotes returns five options (four quotes and the pickup
option) with no truncation. -/
theorem claimC2_counterexample :
    (20 : ℚ) ≤ inputAU20.weight
    ∧ Except.map List.length (getShippingServices inputAU20 false envQuotes)
        = Except.ok 5 :=
  ⟨by decide, by decide⟩

/-- Witness for the amended C2 on the truncating domestic branch. -/
theorem claimC2_witness :
    inputAU5.weight < 20 ∧ inputAU5.destinationCountry = "AU"
    ∧ getShippingServices inputAU5 false envAllFail
        = Except.ok [pickupShippingOption]
    ∧ ([pickupShippingOption] : List StripeShippingOption).length ≤ 4 :=
  ⟨by decide, by decide, by decide,
    (claimC2_length_bounds inputAU5 false envAllFail).1 (by decide) (by decide)
      [pickupShippingOption] (by decide)⟩
